import Mathlib

/-!
Verification model of `Pytorch-UNet-no-branch/.ipynb_checkpoints/train-checkpoint.py`:
dataset construction with the specialized-to-generic fallback, the degenerate
`random_split` calls, the epoch/batch training loop with loss logging and
periodic checkpointing, and the `__main__` wrapper with its
`KeyboardInterrupt` handler.

External collaborators (the tensor engine, the UNet forward pass, the Adam
update rule, torch's `randperm`) are out of scope of the repository and enter
the model as parameters: `lossFn` abstracts `criterion(net(images), true_out)`,
`stepP` abstracts the parameter update performed by
`grad_scaler.step(optimizer)`, and `rp` abstracts `randperm` as a function of
the generator state and the index count.  Everything the script itself does is
translated directly.
-/

namespace UNetTrain

/-- Python exceptions this script can raise or catch. -/
inductive PyError where
  | assertionError
  | runtimeError
  | zeroDivisionError
  | valueError
  | otherError
  deriving DecidableEq, Repr

/-- One dataset sample as the training loop observes it: the channel count of
its image tensor (`images.shape[1]` after collation). -/
structure Sample where
  channels : Nat
  deriving DecidableEq, Repr

/-- A dataset is an indexed collection of samples; `length` = sample count. -/
abbrev Dataset := List Sample

/-- Which dataset-construction strategy ended up backing the dataset. -/
inductive Strategy where
  | specialized
  | generic
  deriving DecidableEq, Repr

/-- Lines 41-49: `try: CarvanaDataset(...) except (AssertionError, RuntimeError):
BasicDataset(...)`.  `spec` is the outcome of attempting the specialized
strategy, `gen` the outcome the generic strategy would have; the fallback runs
the generic constructor only when the specialized one raised `AssertionError`
or `RuntimeError`, and any other escape propagates. -/
def makeDataset (spec gen : Except PyError Dataset) :
    Except PyError (Strategy × Dataset) :=
  match spec with
  | .ok d => .ok (.specialized, d)
  | .error .assertionError => Except.map (fun d => (Strategy.generic, d)) gen
  | .error .runtimeError => Except.map (fun d => (Strategy.generic, d)) gen
  | .error e => .error e

/-- A torch pseudo-random generator; only its seed state matters here. -/
structure Generator where
  state : Nat
  deriving DecidableEq, Repr

/-- `torch.Generator().manual_seed(s)` resets the state to `s` regardless of
the prior state (lines 54-55). -/
def Generator.manual_seed (_g : Generator) (s : Nat) : Generator := ⟨s⟩

/-- Consecutive chunks of `xs` of the given lengths: `random_split` carves the
shuffled index list into subsets this way. -/
def splitChunks : List Nat → List Nat → List (List Nat)
  | [], _ => []
  | l :: ls, xs => xs.take l :: splitChunks ls (xs.drop l)

/-- `torch.utils.data.random_split(dataset, lengths, generator)`: requires the
lengths to sum to the dataset length (else `ValueError`), draws a permutation
of the indices from the generator state (`rp` abstracts `randperm`), and cuts
it into consecutive chunks. -/
def random_split (n : Nat) (lengths : List Nat) (g : Generator)
    (rp : Nat → Nat → List Nat) : Except PyError (List (List Nat)) :=
  if lengths.sum = n then .ok (splitChunks lengths (rp g.state n))
  else .error .valueError

/-- The network as the training loop sees it: channel configuration, the
(abstract) parameter state, and the train-mode flag set by `net.train()`. -/
structure Net (P : Type) where
  n_channels : Nat
  n_classes : Nat
  params : P
  training : Bool
  deriving DecidableEq, Repr

/-- Adam optimizer state visible to this script: the learning rate and weight
decay fixed at construction (line 81), plus an abstract counter for its
internal moment state advanced by each `step`. -/
structure Optimizer where
  lr : ℚ
  weight_decay : ℚ
  steps : Nat
  deriving DecidableEq, Repr

/-- `ReduceLROnPlateau` scheduler constructed on line 82 with patience 2;
`stepCount` counts `scheduler.step(...)` calls. -/
structure Scheduler where
  patience : Nat
  stepCount : Nat
  deriving DecidableEq, Repr

/-- `scheduler.step(metric)` as the (commented-out) evaluation round would
invoke it: it is never called by this revision of the loop. -/
def Scheduler.step (s : Scheduler) : Scheduler :=
  { s with stepCount := s.stepCount + 1 }

/-- `torch.cuda.amp.GradScaler(enabled=amp)` (line 83); `updates` counts
`grad_scaler.update()` calls. -/
structure GradScaler where
  enabled : Bool
  updates : Nat
  deriving DecidableEq, Repr

/-- Filesystem paths as component lists (pathlib semantics); a one-component
path is a file in the current working directory. -/
abbrev FsPath := List String

/-- Line 27: `dir_checkpoint = Path('./checkpoints/')`. -/
def dir_checkpoint : FsPath := ["checkpoints"]

/-- Line 148: `str(dir_checkpoint / f'checkpoint_epoch_224x224_{epoch + 1}.pth')`. -/
def checkpointFile (epoch : Nat) : FsPath :=
  ["checkpoints", "checkpoint_epoch_224x224_" ++ toString (epoch + 1) ++ ".pth"]

/-- Line 200: `torch.save(net.state_dict(), 'INTERRUPTED.pth')`. -/
def interruptedFile : FsPath := ["INTERRUPTED.pth"]

/-- Observable actions of one run, in program order. -/
inductive Event (P : Type) where
  | assertOk (epoch idx : Nat)
  | forward (epoch idx : Nat)
  | backward (epoch idx : Nat)
  | optimStep (p : P)
  | logTrainLoss (loss : ℚ) (step : Nat) (epoch : Nat)
  | makeDir (dir : FsPath)
  | saveFile (path : FsPath) (p : P)
  | logMsg (msg : String)
  deriving DecidableEq, Repr

def isForward {P : Type} : Event P → Bool
  | .forward _ _ => true
  | _ => false

def isLogTrainLoss {P : Type} : Event P → Bool
  | .logTrainLoss _ _ _ => true
  | _ => false

def isSave {P : Type} : Event P → Bool
  | .saveFile _ _ => true
  | _ => false

def isSaveTo {P : Type} (path : FsPath) : Event P → Bool
  | .saveFile q _ => decide (q = path)
  | _ => false

def isMakeDir {P : Type} : Event P → Bool
  | .makeDir _ => true
  | _ => false

/-- Mutable state threaded through the training loop. -/
structure LoopSt (P : Type) where
  net : Net P
  optimizer : Optimizer
  scheduler : Scheduler
  scaler : GradScaler
  epoch_loss : ℚ
  global_step : Nat
  deriving DecidableEq, Repr

/-- Result of a loop fragment: the events it emitted and the state it left
behind, with `err` when a Python exception escaped. -/
inductive StepRes (P : Type) where
  | ok (tr : List (Event P)) (st : LoopSt P)
  | err (e : PyError) (tr : List (Event P)) (st : LoopSt P)
  deriving DecidableEq, Repr

def StepRes.state {P : Type} : StepRes P → LoopSt P
  | .ok _ st => st
  | .err _ _ st => st

def StepRes.events {P : Type} : StepRes P → List (Event P)
  | .ok tr _ => tr
  | .err _ tr _ => tr

/-- `images.shape[1]` of a collated batch. -/
def batchChannels (b : List Sample) : Nat := (b.headD ⟨0⟩).channels

/-- Python division `x / d` by an integer: raises `ZeroDivisionError` when the
divisor is zero. -/
def pyDiv (x : ℚ) (d : Nat) : Except PyError ℚ :=
  if d = 0 then .error .zeroDivisionError else .ok (x / (d : ℚ))

/-- Lines 92-115, one iteration of `for batch in train_loader`: assert the
channel-count invariant (fatal `AssertionError` before anything else), then
forward pass, loss, backward, optimizer step through the scaler, scaler
update, and loss accumulation. -/
def runBatch {P : Type} (lossFn : P → List Sample → ℚ)
    (stepP : P → List Sample → P) (epoch idx : Nat)
    (st : LoopSt P) (b : List Sample) : StepRes P :=
  if batchChannels b = st.net.n_channels then
    let l := lossFn st.net.params b
    let p2 := stepP st.net.params b
    .ok [Event.assertOk epoch idx, Event.forward epoch idx,
         Event.backward epoch idx, Event.optimStep p2]
      { st with
        net := { st.net with params := p2 },
        optimizer := { st.optimizer with steps := st.optimizer.steps + 1 },
        scaler := { st.scaler with updates := st.scaler.updates + 1 },
        epoch_loss := st.epoch_loss + l }
  else
    .err .assertionError [] st

/-- The whole `for batch in train_loader` loop, batches indexed from `idx`. -/
def runBatches {P : Type} (lossFn : P → List Sample → ℚ)
    (stepP : P → List Sample → P) (epoch : Nat) :
    Nat → LoopSt P → List (List Sample) → StepRes P
  | _, st, [] => .ok [] st
  | idx, st, b :: bs =>
    match runBatch lossFn stepP epoch idx st b with
    | .err e tr st2 => .err e tr st2
    | .ok tr st2 =>
      match runBatches lossFn stepP epoch (idx + 1) st2 bs with
      | .ok tr2 st3 => .ok (tr ++ tr2) st3
      | .err e tr2 st3 => .err e (tr ++ tr2) st3

/-- The per-batch loss values an epoch accumulates, starting from parameter
state `p` (the loss of each batch is computed from the parameters as updated
by the preceding batches). -/
def epochLosses {P : Type} (lossFn : P → List Sample → ℚ)
    (stepP : P → List Sample → P) (p : P) : List (List Sample) → List ℚ
  | [] => []
  | b :: bs => lossFn p b :: epochLosses lossFn stepP (stepP p b) bs

/-- Lines 88-149, the body of `for epoch in range(epochs)`: `net.train()`,
reset `epoch_loss`, run all batches, increment `global_step`, log
`epoch_loss/(n_train//batch_size)` to the tracker (Python integer floor
division; the division itself can raise `ZeroDivisionError`), and on even
epoch indices create the checkpoint directory and save a checkpoint named by
the epoch number. -/
def runEpoch {P : Type} (lossFn : P → List Sample → ℚ)
    (stepP : P → List Sample → P) (n_train batch_size : Nat)
    (batches : List (List Sample)) (epoch : Nat) (st : LoopSt P) : StepRes P :=
  let st0 := { st with net := { st.net with training := true }, epoch_loss := 0 }
  match runBatches lossFn stepP epoch 0 st0 batches with
  | .err e tr st2 => .err e tr st2
  | .ok tr st2 =>
    let st3 := { st2 with global_step := st2.global_step + 1 }
    match pyDiv st3.epoch_loss (n_train / batch_size) with
    | .error e => .err e tr st3
    | .ok avg =>
      let tr2 := tr ++ [Event.logTrainLoss avg st3.global_step epoch]
      if epoch % 2 = 0 then
        .ok (tr2 ++ [Event.makeDir dir_checkpoint,
                     Event.saveFile (checkpointFile epoch) st3.net.params,
                     Event.logMsg ("Checkpoint " ++ toString (epoch + 1) ++ " saved!")]) st3
      else
        .ok tr2 st3

/-- `for epoch in range(epochs)`: run `count` epochs starting at index `e`. -/
def runEpochs {P : Type} (lossFn : P → List Sample → ℚ)
    (stepP : P → List Sample → P) (n_train batch_size : Nat)
    (batches : List (List Sample)) :
    Nat → Nat → LoopSt P → StepRes P
  | 0, _, st => .ok [] st
  | count + 1, e, st =>
    match runEpoch lossFn stepP n_train batch_size batches e st with
    | .err er tr st2 => .err er tr st2
    | .ok tr st2 =>
      match runEpochs lossFn stepP n_train batch_size batches count (e + 1) st2 with
      | .ok tr2 st3 => .ok (tr ++ tr2) st3
      | .err er tr2 st3 => .err er (tr ++ tr2) st3

/-- `DataLoader(..., batch_size=b, shuffle=False, drop_last=False)` batching:
consecutive chunks of size `b`, the trailing chunk possibly smaller.  The
`fuel` argument bounds the recursion by the list length. -/
def chunkAux (b : Nat) : Nat → List Sample → List (List Sample)
  | 0, _ => []
  | _, [] => []
  | fuel + 1, x :: xs => ((x :: xs).take b) :: chunkAux b fuel ((x :: xs).drop b)

/-- The batches the training loader yields, in order. -/
def chunkList (b : Nat) (xs : List Sample) : List (List Sample) :=
  chunkAux b xs.length xs

/-- Outcome of one `train_net(...)` call. `earlyErr` = an exception escaped
before the loop state existed (dataset construction, split, loader
construction); `failed` = an exception escaped from the training loop. -/
inductive RunResult (P : Type) where
  | earlyErr (e : PyError)
  | done (tr : List (Event P)) (st : LoopSt P)
  | failed (e : PyError) (tr : List (Event P)) (st : LoopSt P)
  deriving DecidableEq, Repr

def RunResult.trace {P : Type} : RunResult P → List (Event P)
  | .earlyErr _ => []
  | .done tr _ => tr
  | .failed _ tr _ => tr

/-- Package the loop's outcome as the outcome of the whole call. -/
def loopOutcome {P : Type} : StepRes P → RunResult P
  | .ok tr st => .done tr st
  | .err e tr st => .failed e tr st

/-- Lines 31-149, `train_net`: dataset construction with fallback, the two
degenerate `random_split` calls (fresh generators with arbitrary prior states
`g0`, `g1`, both reseeded to 0), loader construction (rejecting
`batch_size = 0` as `DataLoader` would), optimizer/scheduler/scaler setup, and
the epoch loop.  `specTrain`/`genTrain`/`specTest`/`genTest` are the outcomes
the two construction strategies would have on the two directory pairs. -/
def train_net {P : Type} (rp : Nat → Nat → List Nat)
    (lossFn : P → List Sample → ℚ) (stepP : P → List Sample → P)
    (net : Net P) (epochs batch_size : Nat) (learning_rate : ℚ) (amp : Bool)
    (g0 g1 : Nat)
    (specTrain genTrain specTest genTest : Except PyError Dataset) :
    RunResult P :=
  match makeDataset specTrain genTrain with
  | .error e => .earlyErr e
  | .ok (_, dsTrain) =>
    match makeDataset specTest genTest with
    | .error e => .earlyErr e
    | .ok (_, dsTest) =>
      let n_train := dsTrain.length
      let n_val := dsTest.length
      match random_split n_train [n_train, 0] ((Generator.mk g0).manual_seed 0) rp with
      | .error e => .earlyErr e
      | .ok trainParts =>
        match random_split n_val [0, n_val] ((Generator.mk g1).manual_seed 0) rp with
        | .error e => .earlyErr e
        | .ok _valParts =>
          if batch_size = 0 then .earlyErr .valueError
          else
            let trainIdx := trainParts.getD 0 []
            let trainSamples := trainIdx.map (fun i => dsTrain.getD i ⟨0⟩)
            let batches := chunkList batch_size trainSamples
            let st0 : LoopSt P :=
              { net := net,
                optimizer := { lr := learning_rate, weight_decay := 1 / 100000000, steps := 0 },
                scheduler := { patience := 2, stepCount := 0 },
                scaler := { enabled := amp, updates := 0 },
                epoch_loss := 0,
                global_step := 0 }
            loopOutcome (runEpochs lossFn stepP n_train batch_size batches epochs 0 st0)

/-- The parameter state after replaying a trace prefix: the last parameters
recorded by an optimizer step, else the initial ones.  This is what `net`
holds when an asynchronous interrupt lands after that prefix. -/
def paramsAfter {P : Type} (p0 : P) (tr : List (Event P)) : P :=
  tr.foldl (fun acc e => match e with | Event.optimStep p => p | _ => acc) p0

/-- Observable outcome of the whole process: trace plus exit code. -/
structure MainOutcome (P : Type) where
  trace : List (Event P)
  exitCode : Nat
  deriving DecidableEq, Repr

/-- Normal completion of the `__main__` block: falling off the end exits 0;
an uncaught exception terminates with a failure exit. -/
def finishRun {P : Type} : RunResult P → MainOutcome P
  | .earlyErr _ => { trace := [], exitCode := 1 }
  | .done tr _ => { trace := tr, exitCode := 0 }
  | .failed _ tr _ => { trace := tr, exitCode := 1 }

/-- Lines 169-202, the `__main__` block: build `UNet(n_channels=3, n_classes=2)`
with initial (possibly loaded) parameters `p0`, call `train_net` inside
`try: ... except KeyboardInterrupt:`.  An interrupt arriving during the call is
modelled by the truncation point `intrAt`: `some k` with `k` before the end of
the run truncates the observable behaviour after `k` events, then the handler
saves the current parameters to the fixed name `INTERRUPTED.pth` and calls
`sys.exit(0)`.  `intrAt = none` (or a point past the end) is an uninterrupted
invocation. -/
def pymain {P : Type} (rp : Nat → Nat → List Nat)
    (lossFn : P → List Sample → ℚ) (stepP : P → List Sample → P)
    (p0 : P) (epochs batch_size : Nat) (learning_rate : ℚ) (amp : Bool)
    (g0 g1 : Nat)
    (specTrain genTrain specTest genTest : Except PyError Dataset)
    (intrAt : Option Nat) : MainOutcome P :=
  let net : Net P := { n_channels := 3, n_classes := 2, params := p0, training := false }
  let r := train_net rp lossFn stepP net epochs batch_size learning_rate amp
    g0 g1 specTrain genTrain specTest genTest
  match intrAt with
  | none => finishRun r
  | some k =>
    if k < r.trace.length then
      { trace := r.trace.take k
          ++ [Event.saveFile interruptedFile (paramsAfter p0 (r.trace.take k)),
              Event.logMsg "Saved interrupt"],
        exitCode := 0 }
    else finishRun r

/-- The loop state a `train_net` call left behind, when it got far enough to
create one. -/
def RunResult.stateOpt {P : Type} : RunResult P → Option (LoopSt P)
  | .earlyErr _ => none
  | .done _ st => some st
  | .failed _ _ st => some st

/-! ## Theorems -/

/-- Claim C5: dataset construction attempts the specialized strategy first;
the generic strategy backs the dataset exactly when the specialized attempt
raised a structural/assertion failure (`AssertionError` or `RuntimeError`),
the choice is a one-shot construction-time decision recorded in the result,
and the fallback surfaces no error to the caller. -/
theorem C5_dataset_fallback (spec gen : Except PyError Dataset) (d : Dataset) :
    (spec = Except.ok d → makeDataset spec gen = Except.ok (Strategy.specialized, d)) ∧
    ((spec = Except.error PyError.assertionError ∨ spec = Except.error PyError.runtimeError) →
      gen = Except.ok d → makeDataset spec gen = Except.ok (Strategy.generic, d)) ∧
    (makeDataset spec gen = Except.ok (Strategy.generic, d) →
      spec = Except.error PyError.assertionError ∨ spec = Except.error PyError.runtimeError) := by
  refine ⟨?_, ?_, ?_⟩
  · rintro rfl; rfl
  · rintro (rfl | rfl) rfl <;> rfl
  · intro h
    cases spec with
    | ok d2 => simp [makeDataset] at h
    | error e =>
      cases e <;> simp [makeDataset] at h <;> simp

theorem C5_dataset_fallback_witness :
    makeDataset (Except.error PyError.assertionError) (Except.ok [⟨3⟩]) =
      Except.ok (Strategy.generic, ([⟨3⟩] : Dataset)) :=
  (C5_dataset_fallback (Except.error PyError.assertionError) (Except.ok [⟨3⟩])
    [⟨3⟩]).2.1 (Or.inl rfl) rfl

/-- Claim C8: for a fixed seed the split is deterministic — two fresh
generators with arbitrary distinct prior states, both reseeded by
`manual_seed 0` as on lines 54-55, make `random_split` produce identical
index assignments; the result is a function of the dataset length, the
requested sizes and the seed alone. -/
theorem C8_split_deterministic (rp : Nat → Nat → List Nat) (n : Nat)
    (lengths : List Nat) (a b : Nat) :
    random_split n lengths ((Generator.mk a).manual_seed 0) rp =
      random_split n lengths ((Generator.mk b).manual_seed 0) rp := rfl

/-- Claim C6: the two `random_split` calls of lines 54-55 produce index
subsets whose sizes sum to the dataset length, and the split is degenerate:
with sizes `[n_train, 0]` the training subset receives every index of the
training dataset and the discarded subset is empty, and with sizes
`[0, n_val]` the validation subset receives every index of the testing
dataset.  (`rp` being a permutation of the index range is torch's `randperm`
contract.) -/
theorem C6_degenerate_split (rp : Nat → Nat → List Nat) (g0 g1 n m : Nat)
    (hn : (rp 0 n).Perm (List.range n)) (hm : (rp 0 m).Perm (List.range m)) :
    random_split n [n, 0] ((Generator.mk g0).manual_seed 0) rp =
        Except.ok [rp 0 n, []] ∧
      (rp 0 n).length + ([] : List Nat).length = n ∧
      (rp 0 n).Perm (List.range n) ∧
      random_split m [0, m] ((Generator.mk g1).manual_seed 0) rp =
        Except.ok [[], rp 0 m] ∧
      ([] : List Nat).length + (rp 0 m).length = m ∧
      (rp 0 m).Perm (List.range m) := by
  have hnl : (rp 0 n).length = n := by
    simpa using hn.length_eq
  have hml : (rp 0 m).length = m := by
    simpa using hm.length_eq
  refine ⟨?_, by simpa using hnl, hn, ?_, by simpa using hml, hm⟩
  · simp only [random_split, Generator.manual_seed]
    rw [if_pos (by simp)]
    simp [splitChunks, List.take_of_length_le (le_of_eq hnl)]
  · simp only [random_split, Generator.manual_seed]
    rw [if_pos (by simp)]
    simp [splitChunks, List.take_of_length_le (le_of_eq hml)]

theorem C6_degenerate_split_witness :
    random_split 3 [3, 0] ((Generator.mk 7).manual_seed 0) (fun _ k => List.range k) =
        Except.ok [List.range 3, []] ∧
      (List.range 3).length + ([] : List Nat).length = 3 ∧
      (List.range 3).Perm (List.range 3) ∧
      random_split 2 [0, 2] ((Generator.mk 9).manual_seed 0) (fun _ k => List.range k) =
        Except.ok [[], List.range 2] ∧
      ([] : List Nat).length + (List.range 2).length = 2 ∧
      (List.range 2).Perm (List.range 2) :=
  C6_degenerate_split (fun _ k => List.range k) 7 9 3 2 (by decide) (by decide)

/-! ### Frame lemmas: nothing in the loop touches the learning rate or the
scheduler -/

theorem loopOutcome_stateOpt {P : Type} (r : StepRes P) :
    (loopOutcome r).stateOpt = some r.state := by
  cases r <;> rfl

theorem runBatch_frame {P : Type} (lossFn : P → List Sample → ℚ)
    (stepP : P → List Sample → P) (e i : Nat) (st : LoopSt P) (b : List Sample) :
    (runBatch lossFn stepP e i st b).state.net.n_channels = st.net.n_channels ∧
    (runBatch lossFn stepP e i st b).state.optimizer.lr = st.optimizer.lr ∧
    (runBatch lossFn stepP e i st b).state.scheduler = st.scheduler := by
  unfold runBatch
  split <;> simp [StepRes.state]

theorem runBatches_frame {P : Type} (lossFn : P → List Sample → ℚ)
    (stepP : P → List Sample → P) (e : Nat) :
    ∀ (bs : List (List Sample)) (i : Nat) (st : LoopSt P),
    (runBatches lossFn stepP e i st bs).state.net.n_channels = st.net.n_channels ∧
    (runBatches lossFn stepP e i st bs).state.optimizer.lr = st.optimizer.lr ∧
    (runBatches lossFn stepP e i st bs).state.scheduler = st.scheduler := by
  intro bs
  induction bs with
  | nil => intro i st; simp [runBatches, StepRes.state]
  | cons b bs ih =>
    intro i st
    have hb := runBatch_frame lossFn stepP e i st b
    cases hrb : runBatch lossFn stepP e i st b with
    | err er tr st2 =>
      rw [hrb] at hb
      simp only [StepRes.state] at hb
      simp only [runBatches, hrb, StepRes.state]
      exact hb
    | ok tr st2 =>
      rw [hrb] at hb
      simp only [StepRes.state] at hb
      have hrest := ih (i + 1) st2
      cases hr : runBatches lossFn stepP e (i + 1) st2 bs with
      | ok tr2 st3 =>
        rw [hr] at hrest
        simp only [StepRes.state] at hrest
        simp only [runBatches, hrb, hr, StepRes.state]
        exact ⟨hrest.1.trans hb.1, hrest.2.1.trans hb.2.1, hrest.2.2.trans hb.2.2⟩
      | err er2 tr2 st3 =>
        rw [hr] at hrest
        simp only [StepRes.state] at hrest
        simp only [runBatches, hrb, hr, StepRes.state]
        exact ⟨hrest.1.trans hb.1, hrest.2.1.trans hb.2.1, hrest.2.2.trans hb.2.2⟩

theorem runEpoch_frame {P : Type} (lossFn : P → List Sample → ℚ)
    (stepP : P → List Sample → P) (nt bsz : Nat) (batches : List (List Sample))
    (e : Nat) (st : LoopSt P) :
    (runEpoch lossFn stepP nt bsz batches e st).state.net.n_channels = st.net.n_channels ∧
    (runEpoch lossFn stepP nt bsz batches e st).state.optimizer.lr = st.optimizer.lr ∧
    (runEpoch lossFn stepP nt bsz batches e st).state.scheduler = st.scheduler := by
  have hb := runBatches_frame lossFn stepP e batches 0
    { st with net := { st.net with training := true }, epoch_loss := 0 }
  cases hrb : runBatches lossFn stepP e 0
      { st with net := { st.net with training := true }, epoch_loss := 0 } batches with
  | err er tr st2 =>
    rw [hrb] at hb
    simp only [StepRes.state] at hb
    simp only [runEpoch, hrb, StepRes.state]
    exact hb
  | ok tr st2 =>
    rw [hrb] at hb
    simp only [StepRes.state] at hb
    cases hd : pyDiv st2.epoch_loss (nt / bsz) with
    | error er =>
      simp only [runEpoch, hrb, hd, StepRes.state]
      exact hb
    | ok avg =>
      by_cases he : e % 2 = 0
      · simp only [runEpoch, hrb, hd, if_pos he, StepRes.state]
        exact hb
      · simp only [runEpoch, hrb, hd, if_neg he, StepRes.state]
        exact hb

theorem runEpochs_frame {P : Type} (lossFn : P → List Sample → ℚ)
    (stepP : P → List Sample → P) (nt bsz : Nat) (batches : List (List Sample)) :
    ∀ (count e : Nat) (st : LoopSt P),
    (runEpochs lossFn stepP nt bsz batches count e st).state.net.n_channels = st.net.n_channels ∧
    (runEpochs lossFn stepP nt bsz batches count e st).state.optimizer.lr = st.optimizer.lr ∧
    (runEpochs lossFn stepP nt bsz batches count e st).state.scheduler = st.scheduler := by
  intro count
  induction count with
  | zero => intro e st; simp [runEpochs, StepRes.state]
  | succ c ih =>
    intro e st
    have hep := runEpoch_frame lossFn stepP nt bsz batches e st
    cases hre : runEpoch lossFn stepP nt bsz batches e st with
    | err er tr st2 =>
      rw [hre] at hep
      simp only [StepRes.state] at hep
      simp only [runEpochs, hre, StepRes.state]
      exact hep
    | ok tr st2 =>
      rw [hre] at hep
      simp only [StepRes.state] at hep
      have hrest := ih (e + 1) st2
      cases hr : runEpochs lossFn stepP nt bsz batches c (e + 1) st2 with
      | ok tr2 st3 =>
        rw [hr] at hrest
        simp only [StepRes.state] at hrest
        simp only [runEpochs, hre, hr, StepRes.state]
        exact ⟨hrest.1.trans hep.1, hrest.2.1.trans hep.2.1, hrest.2.2.trans hep.2.2⟩
      | err er2 tr2 st3 =>
        rw [hr] at hrest
        simp only [StepRes.state] at hrest
        simp only [runEpochs, hre, hr, StepRes.state]
        exact ⟨hrest.1.trans hep.1, hrest.2.1.trans hep.2.1, hrest.2.2.trans hep.2.2⟩

/-- Claim C7: the scheduler is constructed (patience 2) but never stepped, and
no operation of the training loop modifies the optimizer's learning rate:
whatever loop state a `train_net` call leaves behind — whether the run
finished or died mid-loop — still carries the configured initial learning
rate, and its scheduler step count is zero. -/
theorem C7_lr_constant {P : Type} (rp : Nat → Nat → List Nat)
    (lossFn : P → List Sample → ℚ) (stepP : P → List Sample → P)
    (net : Net P) (epochs batch_size : Nat) (learning_rate : ℚ) (amp : Bool)
    (g0 g1 : Nat) (specTrain genTrain specTest genTest : Except PyError Dataset)
    (st : LoopSt P)
    (h : (train_net rp lossFn stepP net epochs batch_size learning_rate amp
        g0 g1 specTrain genTrain specTest genTest).stateOpt = some st) :
    st.optimizer.lr = learning_rate ∧ st.scheduler.stepCount = 0 := by
  unfold train_net at h
  rcases h1 : makeDataset specTrain genTrain with e1 | ⟨s1, dsTrain⟩
  · simp [h1, RunResult.stateOpt] at h
  · simp only [h1] at h
    rcases h2 : makeDataset specTest genTest with e2 | ⟨s2, dsTest⟩
    · simp [h2, RunResult.stateOpt] at h
    · simp only [h2] at h
      rcases h3 : random_split dsTrain.length [dsTrain.length, 0]
          ((Generator.mk g0).manual_seed 0) rp with e3 | tp
      · simp [h3, RunResult.stateOpt] at h
      · simp only [h3] at h
        rcases h4 : random_split dsTest.length [0, dsTest.length]
            ((Generator.mk g1).manual_seed 0) rp with e4 | vp
        · simp [h4, RunResult.stateOpt] at h
        · simp only [h4] at h
          by_cases hbsz : batch_size = 0
          · rw [if_pos hbsz] at h
            simp [RunResult.stateOpt] at h
          · rw [if_neg hbsz, loopOutcome_stateOpt, Option.some.injEq] at h
            subst h
            constructor
            · exact (runEpochs_frame lossFn stepP _ _ _ epochs 0 _).2.1
            · rw [(runEpochs_frame lossFn stepP _ _ _ epochs 0 _).2.2]

/-! ### One pass over the batches of an epoch -/

/-- A successful pass over all batches: every batch passes the channel
assertion, so the loop returns `ok`, accumulates exactly the per-batch losses
into `epoch_loss`, performs one forward pass per batch, and emits no logging,
save or directory events. -/
theorem runBatches_ok {P : Type} (lossFn : P → List Sample → ℚ)
    (stepP : P → List Sample → P) (epoch : Nat) :
    ∀ (bs : List (List Sample)) (idx : Nat) (st : LoopSt P),
    (∀ b ∈ bs, batchChannels b = st.net.n_channels) →
    ∃ tr st2, runBatches lossFn stepP epoch idx st bs = .ok tr st2 ∧
      st2.epoch_loss = st.epoch_loss + (epochLosses lossFn stepP st.net.params bs).sum ∧
      st2.net.n_channels = st.net.n_channels ∧
      st2.global_step = st.global_step ∧
      tr.countP isForward = bs.length ∧
      (∀ ev ∈ tr, isLogTrainLoss ev = false ∧ isSave ev = false ∧ isMakeDir ev = false) := by
  intro bs
  induction bs with
  | nil =>
    intro idx st hch
    exact ⟨[], st, rfl, by simp [epochLosses], rfl, rfl, rfl, by simp⟩
  | cons b bs ih =>
    intro idx st hch
    have hb : batchChannels b = st.net.n_channels := hch b (by simp)
    have hrb : runBatch lossFn stepP epoch idx st b = .ok
        [Event.assertOk epoch idx, Event.forward epoch idx,
         Event.backward epoch idx, Event.optimStep (stepP st.net.params b)]
        { st with
          net := { st.net with params := stepP st.net.params b },
          optimizer := { st.optimizer with steps := st.optimizer.steps + 1 },
          scaler := { st.scaler with updates := st.scaler.updates + 1 },
          epoch_loss := st.epoch_loss + lossFn st.net.params b } := by
      simp [runBatch, hb]
    obtain ⟨tr2, st2, hrun, hloss, hch2, hgs, hfwd, hev⟩ :=
      ih (idx + 1)
        { st with
          net := { st.net with params := stepP st.net.params b },
          optimizer := { st.optimizer with steps := st.optimizer.steps + 1 },
          scaler := { st.scaler with updates := st.scaler.updates + 1 },
          epoch_loss := st.epoch_loss + lossFn st.net.params b }
        (fun b2 hb2 => hch b2 (by simp [hb2]))
    refine ⟨[Event.assertOk epoch idx, Event.forward epoch idx,
        Event.backward epoch idx, Event.optimStep (stepP st.net.params b)] ++ tr2,
      st2, by simp only [runBatches, hrb, hrun], ?_, hch2, hgs, ?_, ?_⟩
    · rw [hloss]
      simp only [epochLosses, List.sum_cons]
      ring
    · simp [List.countP_append, List.countP_cons, isForward, hfwd, Nat.add_comm]
    · intro ev hev2
      rcases List.mem_append.mp hev2 with h4 | hrest
      · simp only [List.mem_cons, List.not_mem_nil, or_false] at h4
        rcases h4 with rfl | rfl | rfl | rfl
        all_goals exact ⟨rfl, rfl, rfl⟩
      · exact hev ev hrest

/-- Claim C1: the channel-count invariant is checked on every batch, and a
mismatch aborts the run with a fatal `AssertionError` before any forward pass
on that batch: if the batches before position `j` all match the network's
configured input channel count and batch `j` does not, the loop dies with
`AssertionError`, its trace holds forward passes exactly for the `j` earlier
batches, and no forward event for the offending batch (or any later one)
exists. -/
theorem C1_channel_assert {P : Type} (lossFn : P → List Sample → ℚ)
    (stepP : P → List Sample → P) (epoch : Nat) :
    ∀ (bs : List (List Sample)) (j idx : Nat) (st : LoopSt P),
    j < bs.length →
    batchChannels (bs.getD j []) ≠ st.net.n_channels →
    (∀ k, k < j → batchChannels (bs.getD k []) = st.net.n_channels) →
    ∃ tr st2,
      runBatches lossFn stepP epoch idx st bs = .err PyError.assertionError tr st2 ∧
      tr.countP isForward = j ∧
      ∀ i2, idx + j ≤ i2 → Event.forward epoch i2 ∉ tr := by
  intro bs
  induction bs with
  | nil =>
    intro j idx st hj
    simp at hj
  | cons b bs ih =>
    intro j idx st hj hbad hgood
    cases j with
    | zero =>
      have hb : batchChannels b ≠ st.net.n_channels := by simpa using hbad
      have hrb : runBatch lossFn stepP epoch idx st b =
          .err PyError.assertionError [] st := by
        simp [runBatch, hb]
      exact ⟨[], st, by simp [runBatches, hrb], by simp, by simp⟩
    | succ j =>
      have hb : batchChannels b = st.net.n_channels := by
        simpa using hgood 0 (Nat.succ_pos j)
      have hrb : runBatch lossFn stepP epoch idx st b = .ok
          [Event.assertOk epoch idx, Event.forward epoch idx,
           Event.backward epoch idx, Event.optimStep (stepP st.net.params b)]
          { st with
            net := { st.net with params := stepP st.net.params b },
            optimizer := { st.optimizer with steps := st.optimizer.steps + 1 },
            scaler := { st.scaler with updates := st.scaler.updates + 1 },
            epoch_loss := st.epoch_loss + lossFn st.net.params b } := by
        simp [runBatch, hb]
      obtain ⟨tr2, st2, hrun, hcnt, hnof⟩ :=
        ih j (idx + 1)
          { st with
            net := { st.net with params := stepP st.net.params b },
            optimizer := { st.optimizer with steps := st.optimizer.steps + 1 },
            scaler := { st.scaler with updates := st.scaler.updates + 1 },
            epoch_loss := st.epoch_loss + lossFn st.net.params b }
          (by simpa using hj) (by simpa using hbad)
          (fun k hk => by simpa using hgood (k + 1) (Nat.succ_lt_succ hk))
      refine ⟨[Event.assertOk epoch idx, Event.forward epoch idx,
          Event.backward epoch idx, Event.optimStep (stepP st.net.params b)] ++ tr2,
        st2, by simp only [runBatches, hrb, hrun], ?_, ?_⟩
      · simp [List.countP_append, List.countP_cons, isForward, hcnt, Nat.add_comm]
      · intro i2 hi2
        intro hmem
        rcases List.mem_append.mp hmem with h4 | hrest
        · simp only [List.mem_cons, List.not_mem_nil, or_false] at h4
          rcases h4 with h | h | h | h
          · cases h
          · injection h with h1 h2; omega
          · cases h
          · cases h
        · exact hnof i2 (by omega) hrest

theorem C1_channel_assert_witness :
    ∃ tr st2,
      runBatches (P := Nat) (fun _ _ => (1 : ℚ)) (fun p _ => p + 1) 0 0
          { net := ⟨3, 2, 0, true⟩,
            optimizer := { lr := 1, weight_decay := 1 / 100000000, steps := 0 },
            scheduler := { patience := 2, stepCount := 0 },
            scaler := { enabled := false, updates := 0 },
            epoch_loss := 0, global_step := 0 }
          [[⟨3⟩], [⟨4⟩]]
        = .err PyError.assertionError tr st2 ∧
      tr.countP isForward = 1 ∧
      ∀ i2, 0 + 1 ≤ i2 → Event.forward 0 i2 ∉ tr :=
  C1_channel_assert (fun _ _ => (1 : ℚ)) (fun p _ => p + 1) 0 [[⟨3⟩], [⟨4⟩]] 1 0
    { net := ⟨3, 2, 0, true⟩,
      optimizer := { lr := 1, weight_decay := 1 / 100000000, steps := 0 },
      scheduler := { patience := 2, stepCount := 0 },
      scaler := { enabled := false, updates := 0 },
      epoch_loss := 0, global_step := 0 }
    (by decide) (by decide)
    (fun k hk => by interval_cases k; decide)

/-- Claim C2: for every completed epoch, the loss value logged to the tracker
equals the sum of the per-batch loss values accumulated during the epoch
divided by `n_train // batch_size`, the floor-divided complete-batch count —
a quantity computed from `n_train` and `batch_size` alone, not from the number
of samples or the number of batches actually iterated.  Exactly one tracker
log is emitted, tagged with the incremented global step and the epoch
number. -/
theorem C2_epoch_loss_log {P : Type} (lossFn : P → List Sample → ℚ)
    (stepP : P → List Sample → P) (n_train batch_size : Nat)
    (batches : List (List Sample)) (epoch : Nat) (st : LoopSt P)
    (hch : ∀ b ∈ batches, batchChannels b = st.net.n_channels)
    (hdiv : 0 < n_train / batch_size) :
    ∃ tr st2,
      runEpoch lossFn stepP n_train batch_size batches epoch st = .ok tr st2 ∧
      tr.filter isLogTrainLoss =
        [Event.logTrainLoss
          ((epochLosses lossFn stepP st.net.params batches).sum
            / ((n_train / batch_size : Nat) : ℚ))
          (st.global_step + 1) epoch] := by
  obtain ⟨trB, st2, hrun, hloss, _hch2, hgs, _hfwd, hev⟩ :=
    runBatches_ok lossFn stepP epoch batches 0
      { st with net := { st.net with training := true }, epoch_loss := 0 } hch
  have hpd : pyDiv st2.epoch_loss (n_train / batch_size) =
      .ok ((epochLosses lossFn stepP st.net.params batches).sum
        / ((n_train / batch_size : Nat) : ℚ)) := by
    rw [pyDiv, if_neg (Nat.pos_iff_ne_zero.mp hdiv)]
    rw [hloss]
    norm_num
  have hfilterB : trB.filter isLogTrainLoss = [] :=
    List.filter_eq_nil_iff.mpr (fun ev hmem => by simp [(hev ev hmem).1])
  by_cases he : epoch % 2 = 0
  · refine ⟨_, _, by simp only [runEpoch, hrun, hpd, if_pos he]; rfl, ?_⟩
    simp [List.filter_append, hfilterB, List.filter, isLogTrainLoss, hgs]
  · refine ⟨_, _, by simp only [runEpoch, hrun, hpd, if_neg he]; rfl, ?_⟩
    simp [List.filter_append, hfilterB, List.filter, isLogTrainLoss, hgs]

theorem C2_epoch_loss_log_witness :
    (∀ b ∈ [[(⟨3⟩ : Sample)], [⟨3⟩], [⟨3⟩]],
        batchChannels b = (3 : Nat)) ∧ 0 < 5 / 2 ∧
    ∃ tr st2,
      runEpoch (P := Nat) (fun _ _ => (1 : ℚ)) (fun p _ => p + 1) 5 2
          [[⟨3⟩], [⟨3⟩], [⟨3⟩]] 0
          { net := ⟨3, 2, 0, false⟩,
            optimizer := { lr := 1, weight_decay := 1 / 100000000, steps := 0 },
            scheduler := { patience := 2, stepCount := 0 },
            scaler := { enabled := false, updates := 0 },
            epoch_loss := 0, global_step := 0 }
        = .ok tr st2 ∧
      tr.filter isLogTrainLoss =
        [Event.logTrainLoss
          ((epochLosses (fun _ _ => (1 : ℚ)) (fun p _ => p + 1) (0 : Nat)
              [[⟨3⟩], [⟨3⟩], [⟨3⟩]]).sum / ((5 / 2 : Nat) : ℚ))
          (0 + 1) 0] :=
  ⟨by decide, by decide,
    C2_epoch_loss_log (fun _ _ => (1 : ℚ)) (fun p _ => p + 1) 5 2
      [[⟨3⟩], [⟨3⟩], [⟨3⟩]] 0
      { net := ⟨3, 2, 0, false⟩,
        optimizer := { lr := 1, weight_decay := 1 / 100000000, steps := 0 },
        scheduler := { patience := 2, stepCount := 0 },
        scaler := { enabled := false, updates := 0 },
        epoch_loss := 0, global_step := 0 }
      (by decide) (by decide)⟩

/-- Events that touch the filesystem: directory creation and file saves. -/
def isFileOp {P : Type} (ev : Event P) : Bool := isMakeDir ev || isSave ev

/-- Claim C3: after an epoch with even 0-based index the loop creates the
checkpoint directory and writes exactly one checkpoint file, named by the
epoch number, holding the network parameters; after an odd-indexed epoch it
performs no directory creation and writes no checkpoint at all. -/
theorem C3_checkpoint_every_other_epoch {P : Type} (lossFn : P → List Sample → ℚ)
    (stepP : P → List Sample → P) (n_train batch_size : Nat)
    (batches : List (List Sample)) (epoch : Nat) (st : LoopSt P)
    (hch : ∀ b ∈ batches, batchChannels b = st.net.n_channels)
    (hdiv : 0 < n_train / batch_size) :
    ∃ tr st2,
      runEpoch lossFn stepP n_train batch_size batches epoch st = .ok tr st2 ∧
      ((epoch % 2 = 0 →
          tr.filter isFileOp =
            [Event.makeDir dir_checkpoint,
             Event.saveFile (checkpointFile epoch) st2.net.params]) ∧
        (epoch % 2 ≠ 0 → tr.filter isFileOp = [])) := by
  obtain ⟨trB, st2, hrun, _hloss, _hch2, _hgs, _hfwd, hev⟩ :=
    runBatches_ok lossFn stepP epoch batches 0
      { st with net := { st.net with training := true }, epoch_loss := 0 } hch
  have hpd : ∃ avg, pyDiv st2.epoch_loss (n_train / batch_size) = .ok avg :=
    ⟨_, by rw [pyDiv, if_neg (Nat.pos_iff_ne_zero.mp hdiv)]⟩
  obtain ⟨avg, hpd⟩ := hpd
  have hfilterB : trB.filter isFileOp = [] :=
    List.filter_eq_nil_iff.mpr (fun ev hmem => by
      simp [isFileOp, (hev ev hmem).2.1, (hev ev hmem).2.2])
  by_cases he : epoch % 2 = 0
  · refine ⟨_, _, by simp only [runEpoch, hrun, hpd, if_pos he]; rfl, ?_, ?_⟩
    · intro _
      simp [List.filter_append, hfilterB, List.filter, isFileOp, isMakeDir,
        isSave, isLogTrainLoss]
    · intro hcon; exact absurd he hcon
  · refine ⟨_, _, by simp only [runEpoch, hrun, hpd, if_neg he]; rfl, ?_, ?_⟩
    · intro hcon; exact absurd hcon he
    · intro _
      simp [List.filter_append, hfilterB, List.filter, isFileOp, isMakeDir,
        isSave, isLogTrainLoss]

theorem C3_checkpoint_every_other_epoch_witness :
    ∃ tr st2,
      runEpoch (P := Nat) (fun _ _ => (1 : ℚ)) (fun p _ => p + 1) 2 1
          [[⟨3⟩], [⟨3⟩]] 0
          { net := ⟨3, 2, 0, false⟩,
            optimizer := { lr := 1, weight_decay := 1 / 100000000, steps := 0 },
            scheduler := { patience := 2, stepCount := 0 },
            scaler := { enabled := false, updates := 0 },
            epoch_loss := 0, global_step := 0 }
        = .ok tr st2 ∧
      ((0 % 2 = 0 →
          tr.filter isFileOp =
            [Event.makeDir dir_checkpoint,
             Event.saveFile (checkpointFile 0) st2.net.params]) ∧
        (0 % 2 ≠ 0 → tr.filter isFileOp = [])) :=
  C3_checkpoint_every_other_epoch (fun _ _ => (1 : ℚ)) (fun p _ => p + 1) 2 1
    [[⟨3⟩], [⟨3⟩]] 0
    { net := ⟨3, 2, 0, false⟩,
      optimizer := { lr := 1, weight_decay := 1 / 100000000, steps := 0 },
      scheduler := { patience := 2, stepCount := 0 },
      scaler := { enabled := false, updates := 0 },
      epoch_loss := 0, global_step := 0 }
    (by decide) (by decide)

theorem C7_lr_constant_witness :
    ∃ st : LoopSt Nat,
      (train_net (fun _ k => List.range k) (fun _ _ => (1 : ℚ)) (fun p _ => p + 1)
          ⟨3, 2, 0, false⟩ 1 1 1 false 0 0
          (Except.ok [⟨3⟩]) (Except.ok []) (Except.ok [⟨3⟩]) (Except.ok [])).stateOpt
        = some st ∧
      st.optimizer.lr = 1 ∧ st.scheduler.stepCount = 0 := by
  rcases hst : (train_net (fun _ k => List.range k) (fun _ _ => (1 : ℚ)) (fun p _ => p + 1)
      ⟨3, 2, 0, false⟩ 1 1 1 false 0 0
      (Except.ok [⟨3⟩]) (Except.ok []) (Except.ok [⟨3⟩]) (Except.ok [])).stateOpt
    with _ | st
  · exact absurd hst (by decide)
  · exact ⟨st, rfl, C7_lr_constant _ _ _ _ _ _ _ _ _ _ _ _ _ _ st hst⟩

theorem chunkAux_nil (b fuel : Nat) : chunkAux b fuel [] = [] := by
  cases fuel <;> rfl

/-- A dataset smaller than the batch size yields exactly one (under-full)
batch from the loader. -/
theorem chunkList_single (b : Nat) (xs : List Sample) (hne : xs ≠ [])
    (hle : xs.length ≤ b) : chunkList b xs = [xs] := by
  cases xs with
  | nil => exact absurd rfl hne
  | cons x r =>
    simp only [chunkList, List.length_cons, chunkAux]
    rw [List.take_of_length_le hle, List.drop_eq_nil_of_le hle, chunkAux_nil]

/-- Claim C9: when the training set is smaller than the batch size (so
`n_train // batch_size = 0`), the run dies of an uncaught
`ZeroDivisionError` at the end-of-epoch loss logging of the first epoch,
even though the (single) per-batch step before it succeeded: the trace shows
exactly one forward pass, no tracker log and no checkpoint save, and the
process exits with a failure code.  The spec states no precondition ruling
this out. -/
theorem C9_small_dataset_crash {P : Type} (rp : Nat → Nat → List Nat)
    (lossFn : P → List Sample → ℚ) (stepP : P → List Sample → P) (p0 : P)
    (epochs batch_size : Nat) (learning_rate : ℚ) (amp : Bool) (g0 g1 : Nat)
    (dsTrain dsTest : Dataset) (genTrain genTest : Except PyError Dataset)
    (hperm : (rp 0 dsTrain.length).Perm (List.range dsTrain.length))
    (hch : ∀ s ∈ dsTrain, s.channels = 3)
    (hn : 0 < dsTrain.length) (hB : dsTrain.length < batch_size)
    (hep : 0 < epochs) :
    ∃ tr st,
      train_net rp lossFn stepP ⟨3, 2, p0, false⟩ epochs batch_size learning_rate
          amp g0 g1 (Except.ok dsTrain) genTrain (Except.ok dsTest) genTest
        = RunResult.failed PyError.zeroDivisionError tr st ∧
      tr.countP isForward = 1 ∧
      (∀ ev ∈ tr, isLogTrainLoss ev = false ∧ isSave ev = false) ∧
      (pymain rp lossFn stepP p0 epochs batch_size learning_rate amp g0 g1
          (Except.ok dsTrain) genTrain (Except.ok dsTest) genTest none).exitCode
        = 1 := by
  obtain ⟨E, rfl⟩ : ∃ E, epochs = E + 1 := ⟨epochs - 1, by omega⟩
  have hnl : (rp 0 dsTrain.length).length = dsTrain.length := by
    simpa using hperm.length_eq
  have htp : random_split dsTrain.length [dsTrain.length, 0]
      ((Generator.mk g0).manual_seed 0) rp = .ok [rp 0 dsTrain.length, []] := by
    simp only [random_split, Generator.manual_seed]
    rw [if_pos (by simp)]
    simp [splitChunks, List.take_of_length_le (le_of_eq hnl)]
  have hvp : random_split dsTest.length [0, dsTest.length]
      ((Generator.mk g1).manual_seed 0) rp
      = .ok (splitChunks [0, dsTest.length] (rp 0 dsTest.length)) := by
    simp [random_split, Generator.manual_seed]
  have hbsz : ¬ batch_size = 0 := by omega
  have htsl : ((rp 0 dsTrain.length).map (fun i => dsTrain.getD i ⟨0⟩)).length
      = dsTrain.length := by simp [hnl]
  have htsne : (rp 0 dsTrain.length).map (fun i => dsTrain.getD i ⟨0⟩) ≠ [] := by
    intro hcon
    rw [hcon] at htsl
    simp at htsl
    omega
  have htsch : ∀ s ∈ (rp 0 dsTrain.length).map (fun i => dsTrain.getD i ⟨0⟩),
      s.channels = 3 := by
    intro s hs
    obtain ⟨i, hi, rfl⟩ := List.mem_map.mp hs
    have hin : i < dsTrain.length := List.mem_range.mp (hperm.mem_iff.mp hi)
    rw [List.getD_eq_getElem dsTrain ⟨0⟩ hin]
    exact hch _ (List.getElem_mem hin)
  have hchunk : chunkList batch_size
        ((rp 0 dsTrain.length).map (fun i => dsTrain.getD i ⟨0⟩))
      = [(rp 0 dsTrain.length).map (fun i => dsTrain.getD i ⟨0⟩)] :=
    chunkList_single _ _ htsne (by rw [htsl]; omega)
  have hbc : batchChannels ((rp 0 dsTrain.length).map (fun i => dsTrain.getD i ⟨0⟩))
      = 3 := by
    rcases hts2 : (rp 0 dsTrain.length).map (fun i => dsTrain.getD i ⟨0⟩) with _ | ⟨s, r⟩
    · exact absurd hts2 htsne
    · have hsmem : s ∈ (rp 0 dsTrain.length).map (fun i => dsTrain.getD i ⟨0⟩) := by
        rw [hts2]; exact List.mem_cons_self s r
      simpa [batchChannels] using htsch s hsmem
  have hdiv0 : dsTrain.length / batch_size = 0 := Nat.div_eq_of_lt hB
  obtain ⟨trB, st2, hrunB, _hloss2, _hch2, _hgs2, hfwd2, hev2⟩ :=
    runBatches_ok lossFn stepP 0
      [(rp 0 dsTrain.length).map (fun i => dsTrain.getD i ⟨0⟩)] 0
      { net := { n_channels := 3, n_classes := 2, params := p0, training := true },
        optimizer := { lr := learning_rate, weight_decay := 1 / 100000000, steps := 0 },
        scheduler := { patience := 2, stepCount := 0 },
        scaler := { enabled := amp, updates := 0 },
        epoch_loss := 0, global_step := 0 }
      (by
        intro b hb
        simp only [List.mem_singleton] at hb
        subst hb
        exact hbc)
  have hre2 : runEpoch lossFn stepP dsTrain.length batch_size
        [(rp 0 dsTrain.length).map (fun i => dsTrain.getD i ⟨0⟩)] 0
        { net := { n_channels := 3, n_classes := 2, params := p0, training := false },
          optimizer := { lr := learning_rate, weight_decay := 1 / 100000000, steps := 0 },
          scheduler := { patience := 2, stepCount := 0 },
          scaler := { enabled := amp, updates := 0 },
          epoch_loss := 0, global_step := 0 }
      = .err PyError.zeroDivisionError trB
        { st2 with global_step := st2.global_step + 1 } := by
    dsimp only [runEpoch]
    rw [hrunB]
    simp [hdiv0, pyDiv]
  have htn : train_net rp lossFn stepP ⟨3, 2, p0, false⟩ (E + 1) batch_size
      learning_rate amp g0 g1 (Except.ok dsTrain) genTrain (Except.ok dsTest) genTest
      = RunResult.failed PyError.zeroDivisionError trB
        { st2 with global_step := st2.global_step + 1 } := by
    unfold train_net
    simp only [makeDataset, htp, hvp]
    rw [if_neg hbsz]
    simp only [List.getD_cons_zero, hchunk, runEpochs, hre2, loopOutcome]
  refine ⟨trB, { st2 with global_step := st2.global_step + 1 }, htn, ?_, ?_, ?_⟩
  · simpa using hfwd2
  · exact fun ev hm => ⟨(hev2 ev hm).1, (hev2 ev hm).2.1⟩
  · simp [pymain, htn, finishRun]

theorem C9_small_dataset_crash_witness :
    ∃ tr st,
      train_net (P := Nat) (fun _ k => List.range k) (fun _ _ => (1 : ℚ))
          (fun p _ => p + 1) ⟨3, 2, 0, false⟩ 1 2 1 false 0 0
          (Except.ok [⟨3⟩]) (Except.ok []) (Except.ok [⟨3⟩]) (Except.ok [])
        = RunResult.failed PyError.zeroDivisionError tr st ∧
      tr.countP isForward = 1 ∧
      (∀ ev ∈ tr, isLogTrainLoss ev = false ∧ isSave ev = false) ∧
      (pymain (fun _ k => List.range k) (fun _ _ => (1 : ℚ)) (fun p _ => p + 1)
          (0 : Nat) 1 2 1 false 0 0
          (Except.ok [⟨3⟩]) (Except.ok []) (Except.ok [⟨3⟩]) (Except.ok [])
          none).exitCode = 1 :=
  C9_small_dataset_crash (fun _ k => List.range k) (fun _ _ => (1 : ℚ))
    (fun p _ => p + 1) 0 1 2 1 false 0 0 [⟨3⟩] [⟨3⟩] (Except.ok []) (Except.ok [])
    (by decide) (by decide) (by decide) (by decide) (by decide)

/-! ### All saves performed by the training loop are periodic checkpoints -/

theorem loopOutcome_trace {P : Type} (r : StepRes P) :
    (loopOutcome r).trace = r.events := by
  cases r <;> rfl

theorem runBatch_no_save {P : Type} (lossFn : P → List Sample → ℚ)
    (stepP : P → List Sample → P) (e i : Nat) (st : LoopSt P)
    (b : List Sample) (path : FsPath) (prm : P) :
    Event.saveFile path prm ∉ (runBatch lossFn stepP e i st b).events := by
  unfold runBatch
  split <;> simp [StepRes.events]

theorem runBatches_no_save {P : Type} (lossFn : P → List Sample → ℚ)
    (stepP : P → List Sample → P) (e : Nat) :
    ∀ (bs : List (List Sample)) (i : Nat) (st : LoopSt P) (path : FsPath) (prm : P),
    Event.saveFile path prm ∉ (runBatches lossFn stepP e i st bs).events := by
  intro bs
  induction bs with
  | nil => intro i st path prm; simp [runBatches, StepRes.events]
  | cons b bs ih =>
    intro i st path prm
    have hb := runBatch_no_save lossFn stepP e i st b path prm
    cases hrb : runBatch lossFn stepP e i st b with
    | err er tr st2 =>
      rw [hrb] at hb
      simp only [StepRes.events] at hb
      simp only [runBatches, hrb, StepRes.events]
      exact hb
    | ok tr st2 =>
      rw [hrb] at hb
      simp only [StepRes.events] at hb
      have hrest := ih (i + 1) st2 path prm
      cases hr : runBatches lossFn stepP e (i + 1) st2 bs with
      | ok tr2 st3 =>
        rw [hr] at hrest
        simp only [StepRes.events] at hrest
        simp only [runBatches, hrb, hr, StepRes.events]
        intro hmem
        rcases List.mem_append.mp hmem with h1 | h2
        · exact hb h1
        · exact hrest h2
      | err er2 tr2 st3 =>
        rw [hr] at hrest
        simp only [StepRes.events] at hrest
        simp only [runBatches, hrb, hr, StepRes.events]
        intro hmem
        rcases List.mem_append.mp hmem with h1 | h2
        · exact hb h1
        · exact hrest h2

theorem runEpoch_saves {P : Type} (lossFn : P → List Sample → ℚ)
    (stepP : P → List Sample → P) (nt bsz : Nat) (batches : List (List Sample))
    (e : Nat) (st : LoopSt P) (path : FsPath) (prm : P) :
    Event.saveFile path prm ∈ (runEpoch lossFn stepP nt bsz batches e st).events →
    path = checkpointFile e := by
  have hb := runBatches_no_save lossFn stepP e batches 0
    { st with net := { st.net with training := true }, epoch_loss := 0 } path prm
  cases hrb : runBatches lossFn stepP e 0
      { st with net := { st.net with training := true }, epoch_loss := 0 } batches with
  | err er tr st2 =>
    rw [hrb] at hb
    simp only [StepRes.events] at hb
    simp only [runEpoch, hrb, StepRes.events]
    exact fun hmem => absurd hmem hb
  | ok tr st2 =>
    rw [hrb] at hb
    simp only [StepRes.events] at hb
    cases hd : pyDiv st2.epoch_loss (nt / bsz) with
    | error er =>
      simp only [runEpoch, hrb, hd, StepRes.events]
      exact fun hmem => absurd hmem hb
    | ok avg =>
      by_cases he : e % 2 = 0
      · simp only [runEpoch, hrb, hd, if_pos he, StepRes.events]
        intro hmem
        rcases List.mem_append.mp hmem with h1 | h2
        · rcases List.mem_append.mp h1 with h3 | h4
          · exact absurd h3 hb
          · simp at h4
        · simp only [List.mem_cons, List.not_mem_nil, or_false,
            Event.saveFile.injEq] at h2
          rcases h2 with h | ⟨h1, h2⟩ | h
          · cases h
          · exact h1
          · cases h
      · simp only [runEpoch, hrb, hd, if_neg he, StepRes.events]
        intro hmem
        rcases List.mem_append.mp hmem with h1 | h2
        · exact absurd h1 hb
        · simp at h2

theorem runEpochs_saves {P : Type} (lossFn : P → List Sample → ℚ)
    (stepP : P → List Sample → P) (nt bsz : Nat) (batches : List (List Sample)) :
    ∀ (count e : Nat) (st : LoopSt P) (path : FsPath) (prm : P),
    Event.saveFile path prm ∈ (runEpochs lossFn stepP nt bsz batches count e st).events →
    ∃ e2, path = checkpointFile e2 := by
  intro count
  induction count with
  | zero => intro e st path prm hmem; simp [runEpochs, StepRes.events] at hmem
  | succ c ih =>
    intro e st path prm
    have hep := runEpoch_saves lossFn stepP nt bsz batches e st path prm
    cases hre : runEpoch lossFn stepP nt bsz batches e st with
    | err er tr st2 =>
      rw [hre] at hep
      simp only [StepRes.events] at hep
      simp only [runEpochs, hre, StepRes.events]
      exact fun hmem => ⟨e, hep hmem⟩
    | ok tr st2 =>
      rw [hre] at hep
      simp only [StepRes.events] at hep
      have hrest := ih (e + 1) st2 path prm
      cases hr : runEpochs lossFn stepP nt bsz batches c (e + 1) st2 with
      | ok tr2 st3 =>
        rw [hr] at hrest
        simp only [StepRes.events] at hrest
        simp only [runEpochs, hre, hr, StepRes.events]
        intro hmem
        rcases List.mem_append.mp hmem with h1 | h2
        · exact ⟨e, hep h1⟩
        · exact hrest h2
      | err er2 tr2 st3 =>
        rw [hr] at hrest
        simp only [StepRes.events] at hrest
        simp only [runEpochs, hre, hr, StepRes.events]
        intro hmem
        rcases List.mem_append.mp hmem with h1 | h2
        · exact ⟨e, hep h1⟩
        · exact hrest h2

/-- Every file the `train_net` call itself saves is a periodic checkpoint
inside the checkpoint directory. -/
theorem train_net_saves {P : Type} (rp : Nat → Nat → List Nat)
    (lossFn : P → List Sample → ℚ) (stepP : P → List Sample → P)
    (net : Net P) (epochs batch_size : Nat) (learning_rate : ℚ) (amp : Bool)
    (g0 g1 : Nat) (sT gT sE gE : Except PyError Dataset)
    (path : FsPath) (prm : P) :
    Event.saveFile path prm ∈ (train_net rp lossFn stepP net epochs batch_size
        learning_rate amp g0 g1 sT gT sE gE).trace →
    ∃ e2, path = checkpointFile e2 := by
  intro hmem
  unfold train_net at hmem
  rcases h1 : makeDataset sT gT with e1 | ⟨s1, dsTrain⟩
  · simp [h1, RunResult.trace] at hmem
  · simp only [h1] at hmem
    rcases h2 : makeDataset sE gE with e2 | ⟨s2, dsTest⟩
    · simp [h2, RunResult.trace] at hmem
    · simp only [h2] at hmem
      rcases h3 : random_split dsTrain.length [dsTrain.length, 0]
          ((Generator.mk g0).manual_seed 0) rp with e3 | tp
      · simp [h3, RunResult.trace] at hmem
      · simp only [h3] at hmem
        rcases h4 : random_split dsTest.length [0, dsTest.length]
            ((Generator.mk g1).manual_seed 0) rp with e4 | vp
        · simp [h4, RunResult.trace] at hmem
        · simp only [h4] at hmem
          by_cases hbsz : batch_size = 0
          · rw [if_pos hbsz] at hmem
            simp [RunResult.trace] at hmem
          · rw [if_neg hbsz, loopOutcome_trace] at hmem
            exact runEpochs_saves lossFn stepP _ _ _ epochs 0 _ path prm hmem

/-- Claim C4: a cancellation signal arriving at any point `k` during the
training invocation (strictly before the run's trace ends) makes the process
write exactly one checkpoint to the fixed name `INTERRUPTED.pth` — however
many batches or epochs had completed — and exit with code 0. -/
theorem C4_interrupt_one_save {P : Type} (rp : Nat → Nat → List Nat)
    (lossFn : P → List Sample → ℚ) (stepP : P → List Sample → P) (p0 : P)
    (epochs batch_size : Nat) (learning_rate : ℚ) (amp : Bool) (g0 g1 : Nat)
    (sT gT sE gE : Except PyError Dataset) (k : Nat)
    (hk : k < (train_net rp lossFn stepP ⟨3, 2, p0, false⟩ epochs batch_size
        learning_rate amp g0 g1 sT gT sE gE).trace.length) :
    (pymain rp lossFn stepP p0 epochs batch_size learning_rate amp g0 g1
        sT gT sE gE (some k)).exitCode = 0 ∧
    (pymain rp lossFn stepP p0 epochs batch_size learning_rate amp g0 g1
        sT gT sE gE (some k)).trace.countP (isSaveTo interruptedFile) = 1 := by
  have hpre : (((train_net rp lossFn stepP ⟨3, 2, p0, false⟩ epochs batch_size
      learning_rate amp g0 g1 sT gT sE gE).trace.take k).countP
        (isSaveTo interruptedFile)) = 0 := by
    rw [List.countP_eq_zero]
    intro ev hmem hsv
    cases ev <;> simp [isSaveTo] at hsv
    case saveFile q prm =>
      obtain ⟨e2, he2⟩ := train_net_saves rp lossFn stepP ⟨3, 2, p0, false⟩ epochs
        batch_size learning_rate amp g0 g1 sT gT sE gE q prm
        (List.take_subset k _ hmem)
      rw [hsv] at he2
      simp [checkpointFile, interruptedFile] at he2
  constructor
  · simp only [pymain]
    rw [if_pos hk]
  · simp only [pymain]
    rw [if_pos hk]
    simp only [List.countP_append, hpre]
    simp [isSaveTo, List.countP_cons]

theorem C4_interrupt_one_save_witness :
    (pymain (P := Nat) (fun _ k => List.range k) (fun _ _ => (1 : ℚ))
        (fun p _ => p + 1) 0 1 1 1 false 0 0
        (Except.ok [⟨3⟩]) (Except.ok []) (Except.ok [⟨3⟩]) (Except.ok [])
        (some 2)).exitCode = 0 ∧
    (pymain (P := Nat) (fun _ k => List.range k) (fun _ _ => (1 : ℚ))
        (fun p _ => p + 1) 0 1 1 1 false 0 0
        (Except.ok [⟨3⟩]) (Except.ok []) (Except.ok [⟨3⟩]) (Except.ok [])
        (some 2)).trace.countP (isSaveTo interruptedFile) = 1 :=
  C4_interrupt_one_save (fun _ k => List.range k) (fun _ _ => (1 : ℚ))
    (fun p _ => p + 1) 0 1 1 1 false 0 0
    (Except.ok [⟨3⟩]) (Except.ok []) (Except.ok [⟨3⟩]) (Except.ok []) 2
    (by decide)

/-- Claim C10: the interrupt checkpoint is written to the fixed single-component
path `INTERRUPTED.pth` — a file in the current working directory, outside the
`checkpoints` directory used by the periodic epoch checkpoints — and the
interrupt handler appends exactly one save and one log message, creating no
directory; periodic checkpoint paths all live under `checkpoints` and never
equal the interrupt path. -/
theorem C10_interrupt_path_separate {P : Type} (rp : Nat → Nat → List Nat)
    (lossFn : P → List Sample → ℚ) (stepP : P → List Sample → P) (p0 : P)
    (epochs batch_size : Nat) (learning_rate : ℚ) (amp : Bool) (g0 g1 : Nat)
    (sT gT sE gE : Except PyError Dataset) (k : Nat)
    (hk : k < (train_net rp lossFn stepP ⟨3, 2, p0, false⟩ epochs batch_size
        learning_rate amp g0 g1 sT gT sE gE).trace.length) :
    (∃ prm,
      (pymain rp lossFn stepP p0 epochs batch_size learning_rate amp g0 g1
          sT gT sE gE (some k)).trace
        = (train_net rp lossFn stepP ⟨3, 2, p0, false⟩ epochs batch_size
            learning_rate amp g0 g1 sT gT sE gE).trace.take k
          ++ [Event.saveFile interruptedFile prm,
              Event.logMsg "Saved interrupt"]) ∧
    interruptedFile = ["INTERRUPTED.pth"] ∧
    interruptedFile.dropLast = [] ∧
    (∀ e2 : Nat, (checkpointFile e2).dropLast = dir_checkpoint) ∧
    (∀ e2 : Nat, checkpointFile e2 ≠ interruptedFile) := by
  refine ⟨⟨paramsAfter p0 ((train_net rp lossFn stepP ⟨3, 2, p0, false⟩ epochs
      batch_size learning_rate amp g0 g1 sT gT sE gE).trace.take k), ?_⟩,
    rfl, rfl, fun e2 => rfl,
    fun e2 => by simp [checkpointFile, interruptedFile]⟩
  simp only [pymain]
  rw [if_pos hk]

theorem C10_interrupt_path_separate_witness :
    (∃ prm,
      (pymain (P := Nat) (fun _ k => List.range k) (fun _ _ => (1 : ℚ))
          (fun p _ => p + 1) 0 1 1 1 false 0 0
          (Except.ok [⟨3⟩]) (Except.ok []) (Except.ok [⟨3⟩]) (Except.ok [])
          (some 1)).trace
        = (train_net (P := Nat) (fun _ k => List.range k) (fun _ _ => (1 : ℚ))
            (fun p _ => p + 1) ⟨3, 2, 0, false⟩ 1 1 1 false 0 0
            (Except.ok [⟨3⟩]) (Except.ok []) (Except.ok [⟨3⟩])
            (Except.ok [])).trace.take 1
          ++ [Event.saveFile interruptedFile prm,
              Event.logMsg "Saved interrupt"]) ∧
    interruptedFile = ["INTERRUPTED.pth"] ∧
    interruptedFile.dropLast = [] ∧
    (∀ e2 : Nat, (checkpointFile e2).dropLast = dir_checkpoint) ∧
    (∀ e2 : Nat, checkpointFile e2 ≠ interruptedFile) :=
  C10_interrupt_path_separate (fun _ k => List.range k) (fun _ _ => (1 : ℚ))
    (fun p _ => p + 1) 0 1 1 1 false 0 0
    (Except.ok [⟨3⟩]) (Except.ok []) (Except.ok [⟨3⟩]) (Except.ok []) 1
    (by decide)

end UNetTrain
